import Mathlib

/-!
Verification of the AINews pipeline-orchestrator specification against the
repository's admin client code (src/frontend/src/pages/Admin.tsx,
src/frontend/src/lib/api.ts, src/unnamed/part_009, src/unnamed/part_010)
and, where the backend orchestrator itself is not part of the shipped
sources, against models taken from the specification text.
-/

namespace AINews

/-! ## Run and task status enumerations

The queue-based admin API client (src/unnamed/part_010) declares

  status: 'queued' | 'running' | 'success' | 'partial' | 'failed' | 'cancelled'

for PipelineRun, while the client at src/frontend/src/lib/api.ts declares

  status: 'running' | 'success' | 'failed' | 'cancelled'

PipelineTaskRun (src/unnamed/part_010) declares

  status: 'pending' | 'running' | 'success' | 'failed' | 'cancelled'
-/

/-- The status union of PipelineRun in src/unnamed/part_010 (six members). -/
inductive RunStatus where
  | queued
  | running
  | success
  | partialSuccess
  | failed
  | cancelled
deriving DecidableEq

/-- The string literal each RunStatus member stands for in the TS union. -/
def RunStatus.toStr : RunStatus → String
  | .queued => "queued"
  | .running => "running"
  | .success => "success"
  | .partialSuccess => "partial"
  | .failed => "failed"
  | .cancelled => "cancelled"

/-- All members of the part_010 PipelineRun status union, in source order. -/
def RunStatus.all : List RunStatus :=
  [.queued, .running, .success, .partialSuccess, .failed, .cancelled]

/-- The status union of PipelineRun in src/frontend/src/lib/api.ts,
as the list of its string members in source order. -/
def pipelineRunStatusValuesApiTs : List String :=
  ["running", "success", "failed", "cancelled"]

/-- The status union of PipelineTaskRun in src/unnamed/part_010 (five members). -/
inductive TaskStatus where
  | pending
  | running
  | success
  | failed
  | cancelled
deriving DecidableEq

/-- The string literal each TaskStatus member stands for in the TS union. -/
def TaskStatus.toStr : TaskStatus → String
  | .pending => "pending"
  | .running => "running"
  | .success => "success"
  | .failed => "failed"
  | .cancelled => "cancelled"

/-- All members of the PipelineTaskRun status union, in source order. -/
def TaskStatus.all : List TaskStatus :=
  [.pending, .running, .success, .failed, .cancelled]

/-! ## Pipeline stages (src/frontend/src/lib/api.ts line 137, Admin.tsx lines 66-67) -/

/-- The PipelineStage union of src/frontend/src/lib/api.ts:
'fetching' | 'filtering' | 'deduping' | 'saving' | 'enriching' | 'queued'. -/
inductive PipelineStage where
  | fetching
  | filtering
  | deduping
  | saving
  | enriching
  | queued
deriving DecidableEq

/-- The string literal each PipelineStage member stands for in the TS union. -/
def PipelineStage.toStr : PipelineStage → String
  | .fetching => "fetching"
  | .filtering => "filtering"
  | .deduping => "deduping"
  | .saving => "saving"
  | .enriching => "enriching"
  | .queued => "queued"

/-- Admin.tsx line 66: the five pipeline work stages in display order. -/
def stageOrder : List PipelineStage :=
  [.fetching, .filtering, .deduping, .saving, .enriching]

/-- JS Array.prototype.indexOf semantics: first index of the element, -1 when absent. -/
def jsIndexOf (l : List PipelineStage) (st : PipelineStage) : Int :=
  match l.indexOf? st with
  | some i => (i : Int)
  | none => -1

/-- Admin.tsx line 67: currentIdx is stageOrder.indexOf of the current stage
when one is set, and -1 otherwise. -/
def currentIdx (stage : Option PipelineStage) : Int :=
  match stage with
  | some st => jsIndexOf stageOrder st
  | none => -1

/-- Admin.tsx line 145: a step pill at position i renders as done when
currentIdx is strictly greater than i. -/
def stepDone (stage : Option PipelineStage) (i : Nat) : Bool :=
  (i : Int) < currentIdx stage

/-- C5: For every Task Unit record, the status attribute takes a value in
exactly the five-element set containing pending, running, success, failed and
cancelled: the status union of PipelineTaskRun enumerates exactly these five
strings, and every status member is one of the five listed constructors. -/
theorem task_status_exactly_five :
    TaskStatus.all.map TaskStatus.toStr
      = ["pending", "running", "success", "failed", "cancelled"]
    ∧ ∀ s : TaskStatus, s ∈ TaskStatus.all := by
  refine ⟨by decide, fun s => ?_⟩
  cases s <;> decide

/-- C1 counterexample: the PipelineRun status union in
src/frontend/src/lib/api.ts contains neither the string "queued" nor the
string "partial", so the claim that the client-side PipelineRun type admits
those values fails on that module. -/
theorem run_status_api_ts_missing_values :
    "queued" ∉ pipelineRunStatusValuesApiTs
    ∧ "partial" ∉ pipelineRunStatusValuesApiTs := by
  decide

/-- C1 (amended): the PipelineRun type of the queue-aware admin client
(src/unnamed/part_010) takes its status in exactly the six-element set
queued, running, success, partial, failed, cancelled — every member of the
union is one of the six constructors and their strings enumerate exactly that
set, admitting "queued" and "partial" — while the PipelineRun type of
src/frontend/src/lib/api.ts admits only the four values running, success,
failed, cancelled. -/
theorem run_status_exactly_six_in_part010 :
    RunStatus.all.map RunStatus.toStr
      = ["queued", "running", "success", "partial", "failed", "cancelled"]
    ∧ (∀ s : RunStatus, s ∈ RunStatus.all)
    ∧ "queued" ∈ RunStatus.all.map RunStatus.toStr
    ∧ "partial" ∈ RunStatus.all.map RunStatus.toStr
    ∧ pipelineRunStatusValuesApiTs = ["running", "success", "failed", "cancelled"] := by
  refine ⟨by decide, fun s => ?_, by decide, by decide, by decide⟩
  cases s <;> decide

/-- C4: the pipeline stage enumeration and the admin page's stageOrder list
the five-stage sequence fetch, filter, dedupe, save, enrich in exactly that
order (with indices 0 through 4, and the pre-start marker "queued" outside
the order at -1), and a stage reported later in the order implies every
earlier step renders as completed. -/
theorem stage_order_and_completion :
    stageOrder.map PipelineStage.toStr
      = ["fetching", "filtering", "deduping", "saving", "enriching"]
    ∧ currentIdx (some .fetching) = 0
    ∧ currentIdx (some .filtering) = 1
    ∧ currentIdx (some .deduping) = 2
    ∧ currentIdx (some .saving) = 3
    ∧ currentIdx (some .enriching) = 4
    ∧ currentIdx (some .queued) = -1
    ∧ ∀ (st : Option PipelineStage) (i : Nat),
        (i : Int) < currentIdx st → stepDone st i = true := by
  refine ⟨by decide, by decide, by decide, by decide, by decide, by decide, by decide,
    fun st i h => ?_⟩
  simpa [stepDone, decide_eq_true_eq] using h

/-- C4 witness: with the reported stage saving (index 3), the earlier steps
fetch, filter and dedupe all render as completed. -/
theorem stage_order_and_completion_witness :
    ((0 : Int) < currentIdx (some .saving) ∧ stepDone (some .saving) 0 = true)
    ∧ ((1 : Int) < currentIdx (some .saving) ∧ stepDone (some .saving) 1 = true)
    ∧ ((2 : Int) < currentIdx (some .saving) ∧ stepDone (some .saving) 2 = true) :=
  ⟨⟨by decide, stage_order_and_completion.2.2.2.2.2.2.2 (some .saving) 0 (by decide)⟩,
   ⟨by decide, stage_order_and_completion.2.2.2.2.2.2.2 (some .saving) 1 (by decide)⟩,
   ⟨by decide, stage_order_and_completion.2.2.2.2.2.2.2 (some .saving) 2 (by decide)⟩⟩

/-! ## Date-range form (Admin.tsx lines 590-592, 712-722)

Dates are YYYY-MM-DD strings; the JS string comparison operators used by the
handlers are the lexicographic order on strings. -/

/-- The (dateFrom, dateTo) state of the Run Pipeline form in Admin.tsx. -/
structure AdminDateForm where
  dateFrom : String
  dateTo : String
deriving DecidableEq

/-- Admin.tsx lines 712-716: setDateFrom(val); if (dateTo < val) setDateTo(val). -/
def handleDateFromChange (s : AdminDateForm) (val : String) : AdminDateForm :=
  { dateFrom := val
    dateTo := if s.dateTo < val then val else s.dateTo }

/-- Admin.tsx lines 718-722: setDateTo(val); if (dateFrom > val) setDateFrom(val). -/
def handleDateToChange (s : AdminDateForm) (val : String) : AdminDateForm :=
  { dateFrom := if s.dateFrom > val then val else s.dateFrom
    dateTo := val }

/-- One user edit of the date-range form: a change of either bound. -/
inductive DateFormEvent where
  | fromChange (val : String)
  | toChange (val : String)

/-- Dispatch one form event to its handler. -/
def applyDateEvent (s : AdminDateForm) (e : DateFormEvent) : AdminDateForm :=
  match e with
  | .fromChange v => handleDateFromChange s v
  | .toChange v => handleDateToChange s v

/-- Apply a sequence of form events in order. -/
def applyDateEvents (s : AdminDateForm) (es : List DateFormEvent) : AdminDateForm :=
  es.foldl applyDateEvent s

theorem handleDateFromChange_valid (s : AdminDateForm) (val : String) :
    (handleDateFromChange s val).dateFrom ≤ (handleDateFromChange s val).dateTo := by
  by_cases h : s.dateTo < val
  · simp only [handleDateFromChange, if_pos h]
    exact le_refl _
  · simp only [handleDateFromChange, if_neg h]
    exact le_of_not_lt h

theorem handleDateToChange_valid (s : AdminDateForm) (val : String) :
    (handleDateToChange s val).dateFrom ≤ (handleDateToChange s val).dateTo := by
  by_cases h : s.dateFrom > val
  · simp only [handleDateToChange, if_pos h]
    exact le_refl _
  · simp only [handleDateToChange, if_neg h]
    exact le_of_not_lt h

/-- C3: for every sequence of calls to the admin form's handleDateFromChange
and handleDateToChange, starting from a state with dateFrom ≤ dateTo (the
form initializes both bounds to today), the resulting state still satisfies
dateFrom ≤ dateTo — each handler clamps the other bound — so the trigger
request never carries dateFrom > dateTo. -/
theorem date_range_always_valid (s : AdminDateForm) (es : List DateFormEvent)
    (h : s.dateFrom ≤ s.dateTo) :
    (applyDateEvents s es).dateFrom ≤ (applyDateEvents s es).dateTo := by
  induction es generalizing s with
  | nil => exact h
  | cons e es ih =>
    cases e with
    | fromChange v => exact ih _ (handleDateFromChange_valid s v)
    | toChange v => exact ih _ (handleDateToChange_valid s v)

/-- C3 witness: starting from today's default range and moving the From bound
past the To bound and then the To bound below the From bound, the resulting
range is still valid. -/
theorem date_range_always_valid_witness :
    ("2026-02-20" : String) ≤ "2026-02-20"
    ∧ (applyDateEvents ⟨"2026-02-20", "2026-02-20"⟩
        [.fromChange "2026-02-25", .toChange "2026-02-22"]).dateFrom
      ≤ (applyDateEvents ⟨"2026-02-20", "2026-02-20"⟩
        [.fromChange "2026-02-25", .toChange "2026-02-22"]).dateTo :=
  ⟨le_refl _,
   date_range_always_valid ⟨"2026-02-20", "2026-02-20"⟩
     [.fromChange "2026-02-25", .toChange "2026-02-22"] (le_refl _)⟩

/-! ## Progress snapshot rendering (Admin.tsx ProgressPanel) -/

/-- The fields of the Partial PipelineProgress payload that the enrichment
progress bar of Admin.tsx lines 172-185 reads; each is optional because the
TS type wraps PipelineProgress in Partial. -/
structure ProgressView where
  stage : Option PipelineStage
  enriched : Option Int
  totalToEnrich : Option Int

/-- Admin.tsx line 172: the guard of the enrichment progress bar,
stage === 'enriching' and p.total_to_enrich != null and p.total_to_enrich > 0. -/
def enrichBarShown (p : ProgressView) : Bool :=
  (p.stage = some PipelineStage.enriching)
  && (match p.totalToEnrich with
      | some t => (0 : Int) < t
      | none => false)

/-- Admin.tsx lines 176 and 181: the enrichment percentage
((p.enriched ?? 0) / p.total_to_enrich) * 100, rendered only when the guard
of line 172 holds. -/
def renderedEnrichPercent (p : ProgressView) : Option ℚ :=
  if enrichBarShown p then
    some ((((p.enriched.getD 0 : Int) : ℚ) / ((p.totalToEnrich.getD 0 : Int) : ℚ)) * 100)
  else
    none

/-- C9: the enrichment percentage is computed only under the guard
total_to_enrich != null and total_to_enrich > 0, so whenever a percentage is
rendered the divisor is a positive number — never zero, hence the value is
never NaN or infinite — and the rendered value is exactly
(enriched ?? 0) / total_to_enrich * 100 with that positive divisor. -/
theorem enrich_percent_guarded (p : ProgressView) (q : ℚ)
    (h : renderedEnrichPercent p = some q) :
    ∃ t : Int, p.totalToEnrich = some t ∧ 0 < t
      ∧ ((t : ℚ) ≠ 0)
      ∧ q = ((p.enriched.getD 0 : Int) : ℚ) / (t : ℚ) * 100 := by
  unfold renderedEnrichPercent at h
  by_cases hg : enrichBarShown p = true
  · have hq : q = (((p.enriched.getD 0 : Int) : ℚ) / ((p.totalToEnrich.getD 0 : Int) : ℚ)) * 100 := by
      rw [if_pos hg] at h
      exact (Option.some_inj.mp h).symm
    unfold enrichBarShown at hg
    rw [Bool.and_eq_true] at hg
    obtain ⟨-, ht⟩ := hg
    match hte : p.totalToEnrich with
    | none => rw [hte] at ht; simp at ht
    | some t =>
      rw [hte] at ht
      have htpos : (0 : Int) < t := by simpa using ht
      refine ⟨t, rfl, htpos, ?_, ?_⟩
      · exact_mod_cast htpos.ne'
      · rw [hq, hte]
        rfl
  · rw [if_neg hg] at h
    exact absurd h (by simp)

/-- C9 witness: a progress payload in the enriching stage with 3 of 10
articles enriched renders a percentage, and its divisor 10 is positive. -/
theorem enrich_percent_guarded_witness :
    renderedEnrichPercent ⟨some .enriching, some 3, some 10⟩ = some (3 / 10 * 100)
    ∧ ∃ t : Int,
        (⟨some .enriching, some 3, some 10⟩ : ProgressView).totalToEnrich = some t
        ∧ 0 < t ∧ ((t : ℚ) ≠ 0)
        ∧ (3 / 10 * 100 : ℚ)
          = (((⟨some .enriching, some 3, some 10⟩ : ProgressView).enriched.getD 0 : Int) : ℚ)
            / (t : ℚ) * 100 :=
  ⟨by norm_num [renderedEnrichPercent, enrichBarShown],
   enrich_percent_guarded ⟨some .enriching, some 3, some 10⟩ (3 / 10 * 100)
     (by norm_num [renderedEnrichPercent, enrichBarShown])⟩

/-! ## Run progress counters

The orchestrator that writes the progress counters lives in
backend/ingestion/pipeline.py, which is not among the shipped sources; the
model below follows the specification text. -/

/-- The fetched, saved and enriched counters of a Run's progress snapshot. -/
structure ProgressCounters where
  fetched : Nat
  saved : Nat
  enriched : Nat
deriving DecidableEq

/-- Componentwise sum of two counter records. -/
def addCounters (a b : ProgressCounters) : ProgressCounters :=
  { fetched := a.fetched + b.fetched
    saved := a.saved + b.saved
    enriched := a.enriched + b.enriched }

/-- Modelled from the spec: backend/ingestion/pipeline.py is not under src/.
Spec section 4.1 — "counters are cumulative across all Task Units processed
so far in the Run, not per-task". Each Task Unit contributes a record of
per-unit counts, and the snapshot a poller reads after k units have been
processed is the sum of the first k contributions. -/
def snapshotAfter (units : List ProgressCounters) (k : Nat) : ProgressCounters :=
  (units.take k).foldl addCounters ⟨0, 0, 0⟩

/-- Pointwise order on counter records: no counter decreases. -/
def countersLE (a b : ProgressCounters) : Prop :=
  a.fetched ≤ b.fetched ∧ a.saved ≤ b.saved ∧ a.enriched ≤ b.enriched

theorem foldl_addCounters_eq (z : ProgressCounters) (l : List ProgressCounters) :
    l.foldl addCounters z
      = ⟨z.fetched + (l.map ProgressCounters.fetched).sum,
         z.saved + (l.map ProgressCounters.saved).sum,
         z.enriched + (l.map ProgressCounters.enriched).sum⟩ := by
  induction l generalizing z with
  | nil => simp
  | cons a l ih =>
    simp only [List.foldl_cons, List.map_cons, List.sum_cons, ih]
    simp [addCounters, Nat.add_assoc]

theorem sum_take_le_sum_take (l : List Nat) (i j : Nat) (h : i ≤ j) :
    (l.take i).sum ≤ (l.take j).sum := by
  have hj : l.take j = l.take i ++ (l.drop i).take (j - i) := by
    rw [← List.take_add]
    congr 1
    omega
  rw [hj, List.sum_append]
  exact Nat.le_add_right _ _

/-- C2: for any Run, the sequence of progress snapshots observed by a poller
is non-decreasing — after any two points i ≤ j in the Run's execution, the
fetched, saved and enriched counters of the later snapshot are at least those
of the earlier one; counters never decrease within the Run. -/
theorem progress_counters_monotone (units : List ProgressCounters) (i j : Nat)
    (h : i ≤ j) :
    countersLE (snapshotAfter units i) (snapshotAfter units j) := by
  unfold snapshotAfter countersLE
  rw [foldl_addCounters_eq, foldl_addCounters_eq]
  refine ⟨?_, ?_, ?_⟩ <;>
    simpa [← List.map_take] using
      sum_take_le_sum_take (units.map _) i j h

/-- C2 witness: with two task units contributing (5, 4, 4) and (3, 2, 2),
the snapshot after the first unit is below the snapshot after both. -/
theorem progress_counters_monotone_witness :
    (1 : Nat) ≤ 2
    ∧ countersLE (snapshotAfter [⟨5, 4, 4⟩, ⟨3, 2, 2⟩] 1)
        (snapshotAfter [⟨5, 4, 4⟩, ⟨3, 2, 2⟩] 2) :=
  ⟨by decide, progress_counters_monotone [⟨5, 4, 4⟩, ⟨3, 2, 2⟩] 1 2 (by decide)⟩

/-! ## Deduplication gate threshold -/

/-- Modelled from the spec: backend/processing/dedup.py is not under src/.
The default of the DEDUP_SIMILARITY_THRESHOLD setting, 0.85. -/
def dedupSimilarityThresholdDefault : ℚ := 85 / 100

/-- Modelled from the spec: backend/processing/dedup.py is not under src/.
Spec section 4.2 — "A similarity at or above a configured threshold
(default 0.85) classifies the candidate as a duplicate"; the comparison is
inclusive at the threshold. -/
def classifiesAsDuplicate (similarity threshold : ℚ) : Bool :=
  threshold ≤ similarity

/-- C7: the similarity comparison of the Deduplication Gate is inclusive at
the threshold — a cosine similarity exactly equal to the configured threshold
classifies the candidate as a duplicate, while a similarity strictly below
the threshold does not. -/
theorem dedup_threshold_inclusive (similarity threshold : ℚ) :
    (similarity = threshold → classifiesAsDuplicate similarity threshold = true)
    ∧ (similarity < threshold → classifiesAsDuplicate similarity threshold = false) := by
  constructor
  · intro h
    simp [classifiesAsDuplicate, h]
  · intro h
    simp [classifiesAsDuplicate]
    exact h

/-- C7 witness: at the default threshold 0.85, a similarity of exactly 0.85
is classified as a duplicate and a similarity of 0.84 is not. -/
theorem dedup_threshold_inclusive_witness :
    classifiesAsDuplicate dedupSimilarityThresholdDefault
      dedupSimilarityThresholdDefault = true
    ∧ classifiesAsDuplicate (84 / 100) dedupSimilarityThresholdDefault = false :=
  ⟨(dedup_threshold_inclusive dedupSimilarityThresholdDefault
      dedupSimilarityThresholdDefault).1 rfl,
   (dedup_threshold_inclusive (84 / 100) dedupSimilarityThresholdDefault).2
     (by norm_num [dedupSimilarityThresholdDefault])⟩

/-! ## Article store keyed by fingerprint

The storage layer (backend/db and the save step of
backend/ingestion/pipeline.py) is not among the shipped sources; the model
below follows the specification text. -/

/-- An in-memory candidate article, identified for dedup purposes by its
normalized canonical URL. -/
structure Candidate where
  canonicalUrl : String
  title : String
deriving DecidableEq

/-- A durable stored article record, keyed by fingerprint. -/
structure StoredArticle where
  fingerprint : String
  title : String
deriving DecidableEq

/-- Modelled from the spec: backend/processing/dedup.py is not under src/.
The fingerprint is a stable hash of the normalized canonical URL; it is
modelled as the normalized canonical URL itself, which preserves the one
property the claims use — candidates with the same normalized canonical URL
receive the same fingerprint, deterministically. -/
def fingerprintOf (c : Candidate) : String := c.canonicalUrl

/-- Whether the store already holds an article with the given fingerprint. -/
def hasFingerprint (store : List StoredArticle) (fp : String) : Bool :=
  store.any fun a => a.fingerprint = fp

/-- Modelled from the spec: the storage collaborator is not under src/.
Spec sections 3 and 5 — the store supports "insert if fingerprint absent" as
an atomic operation: a second insert with an existing fingerprint is a no-op
and never double-inserts. -/
def insertArticle (store : List StoredArticle) (c : Candidate) : List StoredArticle :=
  if hasFingerprint store (fingerprintOf c) then store
  else store ++ [{ fingerprint := fingerprintOf c, title := c.title }]

/-- Persist a batch of candidates in order through insertArticle. -/
def insertAll (store : List StoredArticle) (cs : List Candidate) : List StoredArticle :=
  cs.foldl insertArticle store

theorem hasFingerprint_iff (store : List StoredArticle) (fp : String) :
    hasFingerprint store fp = true ↔ fp ∈ store.map StoredArticle.fingerprint := by
  unfold hasFingerprint
  rw [List.any_eq_true]
  constructor
  · rintro ⟨a, ha, hfp⟩
    rw [decide_eq_true_eq] at hfp
    exact hfp ▸ List.mem_map_of_mem _ ha
  · intro h
    rcases List.mem_map.mp h with ⟨a, ha, hfp⟩
    exact ⟨a, ha, by rw [decide_eq_true_eq]; exact hfp⟩

theorem insertArticle_nodup (store : List StoredArticle) (c : Candidate)
    (h : (store.map StoredArticle.fingerprint).Nodup) :
    ((insertArticle store c).map StoredArticle.fingerprint).Nodup := by
  unfold insertArticle
  by_cases hp : hasFingerprint store (fingerprintOf c) = true
  · rw [if_pos hp]; exact h
  · rw [if_neg hp, List.map_append]
    simp only [List.map_cons, List.map_nil]
    rw [List.nodup_append]
    refine ⟨h, List.nodup_singleton _, ?_⟩
    intro x hx hx'
    rw [List.mem_singleton] at hx'
    subst hx'
    exact hp ((hasFingerprint_iff store (fingerprintOf c)).mpr hx)

theorem insertAll_nodup (store : List StoredArticle) (cs : List Candidate)
    (h : (store.map StoredArticle.fingerprint).Nodup) :
    ((insertAll store cs).map StoredArticle.fingerprint).Nodup := by
  induction cs generalizing store with
  | nil => exact h
  | cons c cs ih => exact ih _ (insertArticle_nodup store c h)

theorem hasFingerprint_insertArticle_mono (store : List StoredArticle)
    (c : Candidate) (fp : String) (h : hasFingerprint store fp = true) :
    hasFingerprint (insertArticle store c) fp = true := by
  unfold insertArticle
  by_cases hp : hasFingerprint store (fingerprintOf c) = true
  · rw [if_pos hp]; exact h
  · rw [if_neg hp]
    rw [hasFingerprint_iff] at h ⊢
    rw [List.map_append]
    exact List.mem_append_left _ h

theorem hasFingerprint_insertArticle_self (store : List StoredArticle)
    (c : Candidate) :
    hasFingerprint (insertArticle store c) (fingerprintOf c) = true := by
  unfold insertArticle
  by_cases hp : hasFingerprint store (fingerprintOf c) = true
  · rw [if_pos hp]; exact hp
  · rw [if_neg hp]
    rw [hasFingerprint_iff, List.map_append]
    exact List.mem_append_right _ (by simp)

theorem hasFingerprint_insertAll_mono (store : List StoredArticle)
    (cs : List Candidate) (fp : String) (h : hasFingerprint store fp = true) :
    hasFingerprint (insertAll store cs) fp = true := by
  induction cs generalizing store with
  | nil => exact h
  | cons c cs ih => exact ih _ (hasFingerprint_insertArticle_mono store c fp h)

theorem hasFingerprint_insertAll_of_mem (cs : List Candidate) (c : Candidate)
    (hc : c ∈ cs) :
    ∀ store : List StoredArticle,
      hasFingerprint (insertAll store cs) (fingerprintOf c) = true := by
  induction cs with
  | nil => cases hc
  | cons c' cs ih =>
    intro store
    rcases List.mem_cons.mp hc with h | h
    · subst h
      exact hasFingerprint_insertAll_mono _ cs _
        (hasFingerprint_insertArticle_self store c)
    · exact ih h _

theorem insertAll_no_op (store : List StoredArticle) (cs : List Candidate)
    (h : ∀ c ∈ cs, hasFingerprint store (fingerprintOf c) = true) :
    insertAll store cs = store := by
  induction cs generalizing store with
  | nil => rfl
  | cons c cs ih =>
    have hc : insertArticle store c = store := by
      unfold insertArticle
      rw [if_pos (h c (List.mem_cons_self c cs))]
    show insertAll (insertArticle store c) cs = store
    rw [hc]
    exact ih store fun c' hc' => h c' (List.mem_cons_of_mem _ hc')

/-- C6: at most one Stored Article per fingerprint ever exists — whatever
full sequence of candidates the Task Units and Runs push through the store,
each fingerprint occurs at most once among the stored articles; candidates
with the same normalized canonical URL have the same fingerprint; and
re-running a batch that was already persisted (the retry of a Task Unit that
had saved its articles) leaves the store exactly unchanged, so N saved
articles stay exactly N. -/
theorem fingerprint_unique_and_retry_idempotent :
    (∀ (cs : List Candidate) (fp : String),
      ((insertAll [] cs).map StoredArticle.fingerprint).count fp ≤ 1)
    ∧ (∀ c₁ c₂ : Candidate, c₁.canonicalUrl = c₂.canonicalUrl →
        fingerprintOf c₁ = fingerprintOf c₂)
    ∧ (∀ (store : List StoredArticle) (cs : List Candidate),
        insertAll (insertAll store cs) cs = insertAll store cs) := by
  refine ⟨fun cs fp => ?_, fun c₁ c₂ h => h, fun store cs => ?_⟩
  · exact List.nodup_iff_count_le_one.mp
      (insertAll_nodup [] cs (by simp)) fp
  · exact insertAll_no_op _ cs fun c hc =>
      hasFingerprint_insertAll_of_mem cs c hc store

/-- C6 witness: pushing two candidates with the same canonical URL through an
empty store leaves at most one article with that fingerprint, the two
candidates indeed share a fingerprint, and re-running the same batch leaves
the store unchanged. -/
theorem fingerprint_unique_and_retry_idempotent_witness :
    ((insertAll [] [⟨"https://a.example/x", "A"⟩, ⟨"https://a.example/x", "B"⟩]).map
        StoredArticle.fingerprint).count "https://a.example/x" ≤ 1
    ∧ ((⟨"https://a.example/x", "A"⟩ : Candidate).canonicalUrl
        = (⟨"https://a.example/x", "B"⟩ : Candidate).canonicalUrl
      ∧ fingerprintOf ⟨"https://a.example/x", "A"⟩
        = fingerprintOf ⟨"https://a.example/x", "B"⟩)
    ∧ insertAll (insertAll [] [⟨"https://a.example/x", "A"⟩, ⟨"https://b.example/y", "B"⟩])
        [⟨"https://a.example/x", "A"⟩, ⟨"https://b.example/y", "B"⟩]
      = insertAll [] [⟨"https://a.example/x", "A"⟩, ⟨"https://b.example/y", "B"⟩] :=
  ⟨fingerprint_unique_and_retry_idempotent.1
      [⟨"https://a.example/x", "A"⟩, ⟨"https://a.example/x", "B"⟩] "https://a.example/x",
   ⟨rfl, fingerprint_unique_and_retry_idempotent.2.1
      ⟨"https://a.example/x", "A"⟩ ⟨"https://a.example/x", "B"⟩ rfl⟩,
   fingerprint_unique_and_retry_idempotent.2.2 []
      [⟨"https://a.example/x", "A"⟩, ⟨"https://b.example/y", "B"⟩]⟩

/-! ## Visited-article tracking (src/unnamed/part_009) -/

/-- part_009 line 3: the visited-list TTL, seven days in milliseconds. -/
def VISITED_TTL_MS : Int := 7 * 24 * 60 * 60 * 1000

/-- part_009 lines 5-15: parse the persisted [id, timestamp] pairs, keep the
entries younger than the TTL, and return their ids (the Set's elements). -/
def getVisitedIds (entries : List (Int × Int)) (now : Int) : List Int :=
  (entries.filter fun e => decide (now - e.2 < VISITED_TTL_MS)).map Prod.fst

/-- part_009 lines 17-28: drop the entries that carry the same id or are
older than the TTL, then append the pair [id, now]. -/
def markVisited (entries : List (Int × Int)) (now : Int) (id : Int) :
    List (Int × Int) :=
  (entries.filter fun e => decide (e.1 ≠ id) && decide (now - e.2 < VISITED_TTL_MS))
    ++ [(id, now)]

/-- C10: marking an article visited and reading the visited ids back within
the 7-day TTL yields a set containing that id; the persisted list holds
exactly one entry for the marked id — re-marking replaces the timestamp
rather than appending a duplicate — and for every other id the number of its
entries never grows. -/
theorem visited_mark_then_get (entries : List (Int × Int)) (now now' id : Int) :
    (now' - now < VISITED_TTL_MS →
      id ∈ getVisitedIds (markVisited entries now id) now')
    ∧ (markVisited entries now id).countP (fun e => decide (e.1 = id)) = 1
    ∧ ∀ j : Int, j ≠ id →
        (markVisited entries now id).countP (fun e => decide (e.1 = j))
          ≤ entries.countP (fun e => decide (e.1 = j)) := by
  refine ⟨fun h => ?_, ?_, fun j hj => ?_⟩
  · unfold getVisitedIds markVisited
    rw [List.mem_map]
    refine ⟨(id, now), ?_, rfl⟩
    rw [List.mem_filter]
    constructor
    · exact List.mem_append_right _ (by simp)
    · simpa using h
  · unfold markVisited
    rw [List.countP_append]
    have h0 : (entries.filter fun e =>
        decide (e.1 ≠ id) && decide (now - e.2 < VISITED_TTL_MS)).countP
          (fun e => decide (e.1 = id)) = 0 := by
      rw [List.countP_eq_zero]
      intro a ha
      rw [List.mem_filter, Bool.and_eq_true] at ha
      simp only [decide_eq_true_eq] at ha ⊢
      exact ha.2.1
    rw [h0]
    simp
  · unfold markVisited
    rw [List.countP_append]
    have h1 : List.countP (fun e => decide (e.1 = j)) [(id, now)] = 0 := by
      simp [List.countP_cons, Ne.symm hj]
    rw [h1, Nat.add_zero]
    exact (List.filter_sublist entries).countP_le _

/-- C10 witness: after marking article 5 at time 10 on a list that already
holds an entry for 5 and one for 7, reading back at time 20 contains 5, the
list holds exactly one entry for 5, and the entries for 7 did not grow. -/
theorem visited_mark_then_get_witness :
    ((20 : Int) - 10 < VISITED_TTL_MS
      ∧ 5 ∈ getVisitedIds (markVisited [(5, 0), (7, 3)] 10 5) 20)
    ∧ (markVisited [(5, 0), (7, 3)] 10 5).countP (fun e => decide (e.1 = 5)) = 1
    ∧ ((7 : Int) ≠ 5
      ∧ (markVisited [(5, 0), (7, 3)] 10 5).countP (fun e => decide (e.1 = 7))
        ≤ ([(5, 0), (7, 3)] : List (Int × Int)).countP (fun e => decide (e.1 = 7))) :=
  ⟨⟨by decide, (visited_mark_then_get [(5, 0), (7, 3)] 10 20 5).1 (by decide)⟩,
   (visited_mark_then_get [(5, 0), (7, 3)] 10 20 5).2.1,
   ⟨by decide, (visited_mark_then_get [(5, 0), (7, 3)] 10 20 5).2.2 7 (by decide)⟩⟩

/-! ## Retry of a single Task Unit

The client half of the operation lives in src/unnamed/part_010 (the request
path of retrySingleTask); the handler that mutates the registry lives in the
backend, which is not among the shipped sources and is modelled from the
specification text. -/

/-- A Task Unit record as exposed by the admin API: PipelineTaskRun of
src/unnamed/part_010 lines 175-184. -/
structure PipelineTaskRun where
  id : Nat
  runId : Nat
  source : String
  date : String
  status : TaskStatus
  articlesSaved : Option Nat
  errorMessage : Option String
  updatedAt : Option String
deriving DecidableEq

/-- The (run, source, date) triple that keys a Task Unit. -/
def taskKey (t : PipelineTaskRun) : Nat × String × String :=
  (t.runId, t.source, t.date)

/-- Modelled from the spec: the RetryTask handler of the orchestrator is not
under src/. Spec sections 3 and 4.1 — retry "explicitly resets a failed unit
to pending and clears its error"; a unit with a different (run, source, date)
key, or one that is not failed, is untouched. -/
def retryTaskUnit (rid : Nat) (src d : String) (t : PipelineTaskRun) :
    PipelineTaskRun :=
  if taskKey t = (rid, src, d) ∧ t.status = TaskStatus.failed then
    { t with status := TaskStatus.pending, errorMessage := none }
  else t

/-- Modelled from the spec: apply the single-task retry to every unit of the
Run's task list; only the addressed failed unit changes. -/
def retryTask (tasks : List PipelineTaskRun) (rid : Nat) (src d : String) :
    List PipelineTaskRun :=
  tasks.map (retryTaskUnit rid src d)

/-- src/unnamed/part_010 lines 338-341: retrySingleTask posts to
/admin/runs/{runId}/tasks/{source}/{taskDate}/retry. -/
def retrySingleTaskPath (runId : Nat) (source taskDate : String) : String :=
  "/admin/runs/" ++ toString runId ++ "/tasks/" ++ source ++ "/" ++ taskDate
    ++ "/retry"

theorem retryTaskUnit_changed_imp (rid : Nat) (src d : String)
    (t : PipelineTaskRun) (h : retryTaskUnit rid src d t ≠ t) :
    taskKey t = (rid, src, d) ∧ t.status = TaskStatus.failed := by
  by_cases hc : taskKey t = (rid, src, d) ∧ t.status = TaskStatus.failed
  · exact hc
  · exact absurd (by unfold retryTaskUnit; rw [if_neg hc]) h

theorem countP_key_le_one (tasks : List PipelineTaskRun)
    (k : Nat × String × String) (h : (tasks.map taskKey).Nodup) :
    tasks.countP (fun t => decide (taskKey t = k)) ≤ 1 := by
  induction tasks with
  | nil => simp
  | cons t ts ih =>
    rw [List.map_cons, List.nodup_cons] at h
    rw [List.countP_cons]
    by_cases hk : taskKey t = k
    · have hz : ts.countP (fun t' => decide (taskKey t' = k)) = 0 := by
        rw [List.countP_eq_zero]
        intro a ha
        rw [decide_eq_true_eq]
        intro hak
        exact h.1 ((hk.trans hak.symm) ▸ List.mem_map_of_mem taskKey ha)
      simp [hz, hk]
    · simp only [hk, decide_eq_true_eq, if_neg hk, decide_eq_false_iff_not,
        Nat.add_zero]
      simpa using ih h.2

/-- Splitting a separator-free prefix at the first separator is unambiguous:
if neither x₁ nor x₂ contains the separator character, equal concatenations
around it force equal parts. -/
theorem sep_split_inj {x₁ x₂ y₁ y₂ : List Char} (h₁ : '/' ∉ x₁)
    (h₂ : '/' ∉ x₂) (h : x₁ ++ '/' :: y₁ = x₂ ++ '/' :: y₂) :
    x₁ = x₂ ∧ y₁ = y₂ := by
  induction x₁ generalizing x₂ with
  | nil =>
    cases x₂ with
    | nil => simpa using h
    | cons b bs =>
      rw [List.nil_append, List.cons_append, List.cons.injEq] at h
      exact absurd (h.1 ▸ List.mem_cons_self b bs) h₂
  | cons a as ih =>
    cases x₂ with
    | nil =>
      rw [List.nil_append, List.cons_append, List.cons.injEq] at h
      exact absurd (h.1 ▸ List.mem_cons_self a as) h₁
    | cons b bs =>
      rw [List.cons_append, List.cons_append, List.cons.injEq] at h
      have hrec := ih (fun hm => h₁ (List.mem_cons_of_mem a hm))
        (fun hm => h₂ (List.mem_cons_of_mem b hm)) h.2
      exact ⟨by rw [h.1, hrec.1], hrec.2⟩

theorem retrySingleTaskPath_data (r : Nat) (s d : String) :
    (retrySingleTaskPath r s d).data
      = "/admin/runs/".data ++ ((toString r).data
        ++ ('/' :: ("tasks/".data ++ (s.data
        ++ ('/' :: (d.data ++ "/retry".data)))))) := by
  unfold retrySingleTaskPath
  simp only [String.data_append, List.append_assoc]
  rfl

theorem retrySingleTaskPath_inj (r₁ r₂ : Nat) (s₁ s₂ d₁ d₂ : String)
    (hr₁ : '/' ∉ (toString r₁).data) (hs₁ : '/' ∉ s₁.data)
    (hr₂ : '/' ∉ (toString r₂).data) (hs₂ : '/' ∉ s₂.data)
    (h : retrySingleTaskPath r₁ s₁ d₁ = retrySingleTaskPath r₂ s₂ d₂) :
    toString r₁ = toString r₂ ∧ s₁ = s₂ ∧ d₁ = d₂ := by
  have hdata := congrArg String.data h
  rw [retrySingleTaskPath_data, retrySingleTaskPath_data] at hdata
  have h₀ := List.append_cancel_left hdata
  obtain ⟨hr, h₁⟩ := sep_split_inj hr₁ hr₂ h₀
  have h₂ := List.append_cancel_left h₁
  obtain ⟨hs, h₃⟩ := sep_split_inj hs₁ hs₂ h₂
  have hd := List.append_cancel_right h₃
  exact ⟨String.ext hr, String.ext hs, String.ext hd⟩

/-- C8: the retry-single-task operation is keyed by one (run, source, date)
triple. The client encodes exactly that triple in the request path
/admin/runs/{runId}/tasks/{source}/{taskDate}/retry — two key triples whose
source and run segments are slash-free produce the same path only if they
agree — and the registry update it requests resets the addressed failed unit
to pending with its error cleared, touches no unit with a different key or a
non-failed status, and, when the task list carries distinct keys, changes at
most one unit. -/
theorem retry_targets_exactly_one (tasks : List PipelineTaskRun) (rid : Nat)
    (src d : String) :
    ((tasks.map taskKey).Nodup →
      tasks.countP (fun t => decide (retryTaskUnit rid src d t ≠ t)) ≤ 1)
    ∧ (∀ t : PipelineTaskRun,
        taskKey t = (rid, src, d) → t.status = TaskStatus.failed →
          retryTaskUnit rid src d t
            = { t with status := TaskStatus.pending, errorMessage := none })
    ∧ (∀ t : PipelineTaskRun, taskKey t ≠ (rid, src, d) ∨ t.status ≠ TaskStatus.failed →
        retryTaskUnit rid src d t = t)
    ∧ (∀ (r₁ r₂ : Nat) (s₁ s₂ d₁ d₂ : String),
        '/' ∉ (toString r₁).data → '/' ∉ s₁.data →
        '/' ∉ (toString r₂).data → '/' ∉ s₂.data →
        retrySingleTaskPath r₁ s₁ d₁ = retrySingleTaskPath r₂ s₂ d₂ →
        toString r₁ = toString r₂ ∧ s₁ = s₂ ∧ d₁ = d₂) := by
  refine ⟨fun hnd => ?_, fun t hk hf => ?_, fun t h => ?_,
    fun r₁ r₂ s₁ s₂ d₁ d₂ hr₁ hs₁ hr₂ hs₂ h =>
      retrySingleTaskPath_inj r₁ r₂ s₁ s₂ d₁ d₂ hr₁ hs₁ hr₂ hs₂ h⟩
  · calc tasks.countP (fun t => decide (retryTaskUnit rid src d t ≠ t))
        ≤ tasks.countP (fun t => decide (taskKey t = (rid, src, d))) := by
          refine List.countP_mono_left fun t ht hch => ?_
          rw [decide_eq_true_eq] at hch ⊢
          exact (retryTaskUnit_changed_imp rid src d t hch).1
      _ ≤ 1 := countP_key_le_one tasks (rid, src, d) hnd
  · unfold retryTaskUnit
    rw [if_pos ⟨hk, hf⟩]
  · unfold retryTaskUnit
    rw [if_neg]
    intro hc
    rcases h with h | h
    · exact h hc.1
    · exact h hc.2

/-- C8 witness: on a run with two distinctly-keyed tasks of which one failed,
the retry addressed at the failed (run, source, date) changes at most one
unit, resets exactly the addressed unit to pending with its error cleared,
leaves the other unit untouched, and the concrete request path determines
its key triple. -/
theorem retry_targets_exactly_one_witness :
    (([⟨1, 7, "hn", "2026-02-20", TaskStatus.failed, some 0, some "boom", none⟩,
       ⟨2, 7, "reddit", "2026-02-20", TaskStatus.success, some 4, none, none⟩]
        : List PipelineTaskRun).countP
          (fun t => decide (retryTaskUnit 7 "hn" "2026-02-20" t ≠ t)) ≤ 1)
    ∧ retryTaskUnit 7 "hn" "2026-02-20"
        ⟨1, 7, "hn", "2026-02-20", TaskStatus.failed, some 0, some "boom", none⟩
        = ⟨1, 7, "hn", "2026-02-20", TaskStatus.pending, some 0, none, none⟩
    ∧ retryTaskUnit 7 "hn" "2026-02-20"
        ⟨2, 7, "reddit", "2026-02-20", TaskStatus.success, some 4, none, none⟩
        = ⟨2, 7, "reddit", "2026-02-20", TaskStatus.success, some 4, none, none⟩
    ∧ (toString 7 = toString 7 ∧ ("hn" : String) = "hn"
        ∧ ("2026-02-20" : String) = "2026-02-20") := by
  refine ⟨?_, ?_, ?_, ?_⟩
  · exact (retry_targets_exactly_one _ 7 "hn" "2026-02-20").1 (by decide)
  · exact (retry_targets_exactly_one [] 7 "hn" "2026-02-20").2.1 _ rfl rfl
  · exact (retry_targets_exactly_one [] 7 "hn" "2026-02-20").2.2.1 _
      (Or.inr (by decide))
  · exact (retry_targets_exactly_one [] 7 "hn" "2026-02-20").2.2.2 7 7
      "hn" "hn" "2026-02-20" "2026-02-20" (by decide) (by decide) (by decide)
      (by decide) rfl

end AINews
